import Mathlib

/-!
# Verification of the "Fit Check" virtual try-on core

Shallow embedding of the pose-navigation handlers (Canvas component),
the Gemini response handling and request construction (geminiService.ts),
and the wardrobe selection boundary (WardrobePanel), together with proofs
of the specified properties.

Conventions of the embedding:
* JavaScript `Array.prototype.indexOf` (which returns `-1` on a miss) is
  modelled by `idxOf? : List String → String → Option Nat`, `none` standing
  for `-1`.
* A handler that conditionally calls a callback `onSelectPose(j)` is modelled
  as a function returning `Option Nat`: `some j` when the callback is invoked
  with `j`, `none` for the early-return paths.
* Fallible synchronous code (`throw new Error`) is modelled with
  `Except String`.
* JavaScript `%` on the natural numbers that occur here agrees with `Nat.%`;
  expressions of the shape `(i - 1 + n) % n` are rendered as
  `(i + n - 1) % n`, which coincides whenever `1 ≤ n` (the only case in which
  the handlers reach them; with an empty catalog JavaScript would compute
  `NaN % 0 = NaN`, a state the claims never touch).
-/

namespace FitCheck

/-- `idxOf? l s` is the index of the first occurrence of `s` in `l`
(JavaScript `l.indexOf(s)`, with `none` playing the role of `-1`). -/
def idxOf? : List String → String → Option Nat
  | [], _ => none
  | a :: as, s => if a = s then some 0 else (idxOf? as s).map (· + 1)

/-- Embedding of `handlePreviousPose` from the Canvas component.
Returns `some j` when the handler calls `onSelectPose(j)`, `none` when it
returns without selecting a pose.  Source logic:
guard `isLoading || availablePoseKeys.length <= 1`; look up the current
instruction `poseInstructions[currentPoseIndex]` in `availablePoseKeys`;
on a miss wrap over the full catalog, on a hit step back (with wrap) inside
`availablePoseKeys` and resolve that instruction back to its catalog index
(selecting only if the resolution succeeds). -/
def handlePreviousPose (isLoading : Bool) (poseInstructions : List String)
    (currentPoseIndex : Nat) (availablePoseKeys : List String) : Option Nat :=
  if isLoading || availablePoseKeys.length ≤ 1 then none
  else
    match (poseInstructions.get? currentPoseIndex).bind (idxOf? availablePoseKeys) with
    | none =>
        some ((currentPoseIndex + poseInstructions.length - 1) % poseInstructions.length)
    | some p =>
        let prevIndexInAvailable := (p + availablePoseKeys.length - 1) % availablePoseKeys.length
        match availablePoseKeys.get? prevIndexInAvailable with
        | none => none  -- unreachable: prevIndexInAvailable < availablePoseKeys.length
        | some prevPoseInstruction => idxOf? poseInstructions prevPoseInstruction

/-- Embedding of `handleNextPose` from the Canvas component.
Returns `some j` when the handler calls `onSelectPose(j)`.  Source logic:
guard `isLoading`; look up the current instruction in `availablePoseKeys`
(the source's extra `availablePoseKeys.length === 0` disjunct is subsumed:
`indexOf` on an empty array is always `-1`); on a miss select
`(i+1) mod |catalog|`; on a hit at position `p`, if `p+1` is still inside
`availablePoseKeys` resolve `availablePoseKeys[p+1]` back to its catalog
index, otherwise fall through to `(i+1) mod |catalog|`. -/
def handleNextPose (isLoading : Bool) (poseInstructions : List String)
    (currentPoseIndex : Nat) (availablePoseKeys : List String) : Option Nat :=
  if isLoading then none
  else
    match (poseInstructions.get? currentPoseIndex).bind (idxOf? availablePoseKeys) with
    | none => some ((currentPoseIndex + 1) % poseInstructions.length)
    | some p =>
        if p + 1 < availablePoseKeys.length then
          match availablePoseKeys.get? (p + 1) with
          | none => none  -- unreachable: p + 1 < availablePoseKeys.length
          | some nextPoseInstruction => idxOf? poseInstructions nextPoseInstruction
        else
          some ((currentPoseIndex + 1) % poseInstructions.length)

/-! ## Gemini service (src/services/geminiService.ts) -/

/-- A request part sent to the generation model: either inline image data or
an instruction text (the `{inlineData: {mimeType, data}}` / `{text: ...}`
objects of the source). -/
inductive Part where
  | inlineData (mimeType data : String)
  | text (s : String)
deriving DecidableEq, Repr

instance {ε α : Type} [DecidableEq ε] [DecidableEq α] : DecidableEq (Except ε α) :=
  fun a b =>
    match a, b with
    | .ok x, .ok y =>
        if h : x = y then isTrue (by rw [h]) else isFalse (by simp [h])
    | .error e, .error f =>
        if h : e = f then isTrue (by rw [h]) else isFalse (by simp [h])
    | .ok _, .error _ => isFalse (by simp)
    | .error _, .ok _ => isFalse (by simp)

/-- JavaScript `String.prototype.split` with a one-character separator, on
character lists (e.g. `split(',')`): `"" ↦ [""]`, `"a,b" ↦ ["a","b"]`,
`"," ↦ ["",""]`.  (A structurally recursive stand-in for the runtime's
string splitting, so that proofs can evaluate it.) -/
def splitOnChar (sep : Char) : List Char → List (List Char)
  | [] => [[]]
  | c :: rest =>
      if c = sep then [] :: splitOnChar sep rest
      else
        match splitOnChar sep rest with
        | [] => [[c]]  -- unreachable: splitOnChar never returns []
        | r :: rs => (c :: r) :: rs

/-- JavaScript `String.prototype.trim` on character lists: drop whitespace
from both ends. -/
def trimChars (l : List Char) : List Char :=
  ((l.dropWhile Char.isWhitespace).reverse.dropWhile Char.isWhitespace).reverse

/-- JavaScript `String.prototype.trim`. -/
def jsTrim (s : String) : String :=
  String.mk (trimChars s.toList)

/-- JavaScript `s.startsWith(pre)`. -/
def jsStartsWith (s pre : String) : Bool :=
  List.isPrefixOf pre.toList s.toList

/-- Scan for the lazy regex tail `(.*?);`: the characters strictly before the
first `';'`, failing if a newline (which `.` does not match) or the end of the
string comes first. -/
def scanToSemi : List Char → Option (List Char)
  | [] => none
  | c :: rest =>
      if c = ';' then some []
      else if c = '\n' then none
      else (scanToSemi rest).map (c :: ·)

/-- First match of the regex `:(.*?);` over a character list: the capture is
the run between the first `':'` that is followed by a `';'` with no
intervening newline, and that `';'`. -/
def findMime : List Char → Option (List Char)
  | [] => none
  | c :: rest =>
      if c = ':' then
        match scanToSemi rest with
        | some m => some m
        | none => findMime rest
      else findMime rest

/-- Embedding of `dataUrlToParts`: split the data URL on `','` (needing at
least two pieces), extract the MIME type from the first piece with the regex
`:(.*?);` (an empty capture is falsy in JavaScript and also rejected), and
take the second piece as the base64 payload. -/
def dataUrlToParts (dataUrl : String) : Except String (String × String) :=
  match splitOnChar ',' dataUrl.toList with
  | a0 :: a1 :: _ =>
      match findMime a0 with
      | some m =>
          if m.isEmpty then .error "Could not parse MIME type from data URL"
          else .ok (String.mk m, String.mk a1)
      | none => .error "Could not parse MIME type from data URL"
  | _ => .error "Invalid data URL"

/-- Embedding of `dataUrlToPart`: a data URL converted to an inline-data
request part. -/
def dataUrlToPart (dataUrl : String) : Except String Part :=
  (dataUrlToParts dataUrl).map fun p => Part.inlineData p.1 p.2

/-- A browser `File` as the service sees it: a name, a MIME `type`, and the
data URL a `FileReader.readAsDataURL` round-trip would produce for its
contents. -/
structure File where
  name : String
  type : String
  dataUrl : String
deriving DecidableEq, Repr

/-- Embedding of `fileToPart`: read the file as a data URL and convert it to
an inline-data part (the `FileReader` step is modelled by the file carrying
its data URL). -/
def fileToPart (f : File) : Except String Part :=
  dataUrlToPart f.dataUrl

/-- The try-on instruction text of `generateVirtualTryOnImage` (the long
prompt constant; its content is opaque to every property proved here, so only
its first line is reproduced). -/
def tryOnPromptText : String :=
  "### MISSION: 100% PRECISION VIRTUAL TRY-ON"

/-- Embedding of `generateVirtualTryOnImage` up to the external call: the
`contents.parts` list it sends to `ai.models.generateContent`, or the error
thrown while building it.  The source first converts `modelImageUrl` (the
previous artifact) with `dataUrlToPart`, then the garment file with
`fileToPart`, and sends `[modelImagePart, garmentImagePart, {text: prompt}]`. -/
def generateVirtualTryOnImage (modelImageUrl : String) (garmentImage : File) :
    Except String (List Part) :=
  match dataUrlToPart modelImageUrl with
  | .error e => .error e
  | .ok modelImagePart =>
      match fileToPart garmentImage with
      | .error e => .error e
      | .ok garmentImagePart =>
          .ok [modelImagePart, garmentImagePart, Part.text tryOnPromptText]

/-- Inline image payload of a response part. -/
structure InlineData where
  mimeType : String
  data : String
deriving DecidableEq, Repr

/-- One part of a response candidate; only its optional `inlineData` field is
inspected by the service. -/
structure RespPart where
  inlineData : Option InlineData
deriving DecidableEq, Repr

/-- Candidate content: an optional list of parts (`candidate.content?.parts`). -/
structure Content where
  parts : Option (List RespPart)
deriving DecidableEq, Repr

/-- One response candidate with its optional content and finish reason. -/
structure Candidate where
  content : Option Content
  finishReason : Option String
deriving DecidableEq, Repr

/-- A `GenerateContentResponse` as `handleApiResponse` consumes it: the
optional candidate list and the aggregated `response.text` accessor. -/
structure GenerateContentResponse where
  candidates : Option (List Candidate)
  text : Option String
deriving DecidableEq, Repr

/-- The parts of a candidate, `[]` when `candidate.content?.parts` is absent
(the source's `if (candidate.content?.parts)` guard skips the inner loop). -/
def candidateParts (c : Candidate) : List RespPart :=
  (c.content.bind Content.parts).getD []

/-- The nested `for` loops of `handleApiResponse`: the first `inlineData`
found scanning candidates in order and each candidate's parts in order. -/
def firstInline (cands : List Candidate) : Option InlineData :=
  cands.findSome? fun c => (candidateParts c).findSome? RespPart.inlineData

/-- JavaScript truthiness test `finishReason && finishReason !== 'STOP'`:
present, non-empty, and different from "STOP". -/
def finishAbnormal : Option String → Bool
  | none => false
  | some s => !(s = "") && !(s = "STOP")

/-- Embedding of `handleApiResponse`: `.ok` carries the returned data URL,
`.error` the message of the thrown `Error`.  Source order: missing/empty
candidate list; first inline-data part wins; abnormal finish reason of the
first candidate; trimmed `response.text` if truthy; generic no-image
message. -/
def handleApiResponse (response : GenerateContentResponse) : Except String String :=
  match response.candidates with
  | none => .error "No candidates returned from the model. This may be due to safety filters."
  | some cands =>
      if cands.length = 0 then
        .error "No candidates returned from the model. This may be due to safety filters."
      else
        match firstInline cands with
        | some d => .ok ("data:" ++ d.mimeType ++ ";base64," ++ d.data)
        | none =>
            let finishReason := (cands.get? 0).bind Candidate.finishReason
            if finishAbnormal finishReason then
              .error ("Generation stopped unexpectedly. Reason: " ++ finishReason.getD "" ++ ".")
            else
              match response.text with
              | some t =>
                  if jsTrim t = "" then
                    .error "No image was returned. Please try a different prompt or image."
                  else
                    .error ("The model responded with text instead of an image: \""
                      ++ jsTrim t ++ "\"")
              | none => .error "No image was returned. Please try a different prompt or image."

/-! ## Wardrobe panel (second document of src/services/geminiService.ts) -/

/-- A wardrobe item `{id, name, url}`. -/
structure WardrobeItem where
  id : String
  name : String
  url : String
deriving DecidableEq, Repr

/-- Observable outcome of `handleGarmentClick`. -/
inductive GarmentClickResult where
  | ignored
  | loadFailed (errorMsg : String)
  | selected (f : File) (item : WardrobeItem)
deriving DecidableEq, Repr

/-- Embedding of `handleGarmentClick`: guard
`isLoading || activeGarmentIds.includes(item.id)`, then `urlToFile` (an
effectful browser conversion, abstracted as the `loadFile` argument from the
item's url and name), then either `onGarmentSelect(file, item)` or the CORS
error message. -/
def handleGarmentClick (loadFile : String → String → Except Unit File)
    (isLoading : Bool) (activeGarmentIds : List String) (item : WardrobeItem) :
    GarmentClickResult :=
  if isLoading || activeGarmentIds.contains item.id then .ignored
  else
    match loadFile item.url item.name with
    | .ok file => .selected file item
    | .error _ => .loadFailed "Failed to load item. This might be a CORS issue."

/-- Observable outcome of `handleFileChange`. -/
inductive FileChangeResult where
  | noFile
  | rejected (errorMsg : String)
  | selected (f : File) (info : WardrobeItem)
deriving DecidableEq, Repr

/-- Embedding of `handleFileChange`: if a first file exists, reject it with
an error message when its MIME type does not start with "image/", otherwise
call `onGarmentSelect` with a custom wardrobe item (id from `Date.now()`,
url from `URL.createObjectURL`, both abstracted as arguments). -/
def handleFileChange (now : Nat) (objectUrl : String) (files : List File) :
    FileChangeResult :=
  match files.head? with
  | none => .noFile
  | some file =>
      if !jsStartsWith file.type "image/" then
        .rejected "Please select an image file."
      else
        .selected file { id := "custom-" ++ toString now, name := file.name, url := objectUrl }

/-! ## Helper lemmas -/

theorem idxOf?_get? : ∀ (l : List String) (j : Nat) (s : String),
    idxOf? l s = some j → l.get? j = some s := by
  intro l
  induction l with
  | nil => intro j s h; simp [idxOf?] at h
  | cons a as ih =>
      intro j s h
      by_cases ha : a = s
      · simp [idxOf?, ha] at h
        subst h
        simp [ha]
      · simp [idxOf?, ha, Option.map_eq_some'] at h
        obtain ⟨j', hj', rfl⟩ := h
        simpa using ih j' s hj'

theorem idxOf?_isSome_of_mem : ∀ (l : List String) (s : String),
    s ∈ l → (idxOf? l s).isSome := by
  intro l
  induction l with
  | nil => intro s h; simp at h
  | cons a as ih =>
      intro s h
      by_cases ha : a = s
      · simp [idxOf?, ha]
      · have hs : s ∈ as := by
          rcases List.mem_cons.mp h with h' | h'
          · exact absurd h'.symm ha
          · exact h'
        simp [idxOf?, ha, Option.isSome_map]
        exact ih s hs

theorem findSome?_none_of_forall {α β : Type} (f : α → Option β) :
    ∀ l : List α, (∀ x ∈ l, f x = none) → l.findSome? f = none := by
  intro l
  induction l with
  | nil => intro _; simp
  | cons a as ih =>
      intro h
      have ha := h a (List.mem_cons_self a as)
      simp [List.findSome?_cons, ha]
      exact fun x hx => h x (List.mem_cons_of_mem a hx)

theorem findSome?_append_left_none {α β : Type} (f : α → Option β) :
    ∀ (l₁ l₂ : List α), (∀ x ∈ l₁, f x = none) →
      (l₁ ++ l₂).findSome? f = l₂.findSome? f := by
  intro l₁
  induction l₁ with
  | nil => intro l₂ _; simp
  | cons a as ih =>
      intro l₂ h
      have ha := h a (List.mem_cons_self a as)
      simp [List.findSome?_cons, ha]
      exact ih l₂ fun x hx => h x (List.mem_cons_of_mem a hx)

/-! ## Claim theorems -/

/-- C1: next-pose navigation does not wrap within the available subset: when
the current pose is found at the last position of `availablePoseKeys`,
`handleNextPose` selects `(i + 1) % |catalog|` on the full catalog rather
than wrapping to `availablePoseKeys[0]`. -/
theorem next_no_wrap_within_available
    (poseInstructions availablePoseKeys : List String) (i p : Nat) (s : String)
    (hcur : poseInstructions.get? i = some s)
    (hfound : idxOf? availablePoseKeys s = some p)
    (hlast : p + 1 = availablePoseKeys.length) :
    handleNextPose false poseInstructions i availablePoseKeys
      = some ((i + 1) % poseInstructions.length) := by
  simp only [handleNextPose, Bool.false_eq_true, if_false, hcur, Option.some_bind, hfound]
  rw [if_neg (by omega)]

/-- Witness for C1: the spec's literal scenario — catalog `[A,B,C,D]`,
available `[A,C]`, current pose `C` (index 2): next selects index 3 (`D`),
not the index of `A`. -/
theorem next_no_wrap_within_available_witness :
    handleNextPose false ["A", "B", "C", "D"] 2 ["A", "C"] = some 3 :=
  next_no_wrap_within_available ["A", "B", "C", "D"] ["A", "C"] 2 1 "C"
    rfl (by decide) (by decide)

/-- C8: `handlePreviousPose` is a no-op when loading or when at most one pose
is available: no pose is selected, so no pose change and no generation
request occurs. -/
theorem previous_noop_guard (isLoading : Bool)
    (poseInstructions availablePoseKeys : List String) (i : Nat)
    (h : isLoading = true ∨ availablePoseKeys.length ≤ 1) :
    handlePreviousPose isLoading poseInstructions i availablePoseKeys = none := by
  rcases h with h | h <;> simp [handlePreviousPose, h]

/-- Witness for C8: a single available pose with `isLoading = false`. -/
theorem previous_noop_guard_witness :
    handlePreviousPose false ["A", "B"] 1 ["B"] = none :=
  previous_noop_guard false ["A", "B"] ["B"] 1 (Or.inr (by decide))

/-- C2 counterexample: with catalog `[A,B]`, available `[B]` and current
index 0 (pose `A`, not present in the available list), the claim demands
selecting `(0 - 1 + 2) % 2 = 1`, but the handler's
`availablePoseKeys.length <= 1` guard makes it select nothing at all. -/
theorem previous_full_wrap_counterexample :
    handlePreviousPose false ["A", "B"] 0 ["B"] ≠ some ((0 + 2 - 1) % 2)
      ∧ handlePreviousPose false ["A", "B"] 0 ["B"] = none
      ∧ (((["A", "B"] : List String).get? 0).bind (idxOf? ["B"])) = none := by
  refine ⟨?_, by decide, by decide⟩
  decide

/-- C2 amended: provided the handler is enabled (`isLoading` false and at
least two poses available), previous-pose navigation follows the claimed
algorithm: an unavailable current pose wraps over the full catalog by plain
modular arithmetic, and an available current pose at position `p` moves to
`availablePoseKeys[(p - 1) % |available|]` resolved back to its (first)
index in the full catalog. -/
theorem previous_navigation_algorithm
    (poseInstructions availablePoseKeys : List String) (i : Nat)
    (hsub : ∀ s ∈ availablePoseKeys, s ∈ poseInstructions)
    (hlen : 2 ≤ availablePoseKeys.length) :
    (((poseInstructions.get? i).bind (idxOf? availablePoseKeys) = none) →
        handlePreviousPose false poseInstructions i availablePoseKeys
          = some ((i + poseInstructions.length - 1) % poseInstructions.length))
    ∧ (∀ s p, poseInstructions.get? i = some s → idxOf? availablePoseKeys s = some p →
        ∃ prevPose j,
          availablePoseKeys.get?
              ((p + availablePoseKeys.length - 1) % availablePoseKeys.length)
            = some prevPose
          ∧ idxOf? poseInstructions prevPose = some j
          ∧ handlePreviousPose false poseInstructions i availablePoseKeys = some j) := by
  have hguard : ¬ availablePoseKeys.length ≤ 1 := by omega
  constructor
  · intro hmiss
    simp only [List.get?_eq_getElem?] at hmiss
    simp [handlePreviousPose, hguard, hmiss]
  · intro s p hcur hfound
    have hlt : (p + availablePoseKeys.length - 1) % availablePoseKeys.length
        < availablePoseKeys.length := Nat.mod_lt _ (by omega)
    obtain ⟨prevPose, hprev⟩ : ∃ x,
        availablePoseKeys.get?
            ((p + availablePoseKeys.length - 1) % availablePoseKeys.length) = some x :=
      ⟨_, List.get?_eq_get hlt⟩
    have hmem : prevPose ∈ availablePoseKeys := List.get?_mem hprev
    obtain ⟨j, hj⟩ :=
      Option.isSome_iff_exists.mp (idxOf?_isSome_of_mem poseInstructions prevPose
        (hsub prevPose hmem))
    refine ⟨prevPose, j, hprev, hj, ?_⟩
    simp only [List.get?_eq_getElem?] at hcur hprev
    simp [handlePreviousPose, hguard, hcur, hfound, hprev, hj]

/-- Witness for C2's amended theorem: catalog `[A,B,C,D]`, available
`[A,C]`, current pose `C` (index 2): previous selects index 0 (`A`). -/
theorem previous_navigation_algorithm_witness :
    handlePreviousPose false ["A", "B", "C", "D"] 2 ["A", "C"] = some 0 := by
  obtain ⟨q, j, h1, h2, h3⟩ :=
    (previous_navigation_algorithm ["A", "B", "C", "D"] ["A", "C"] 2
      (by decide) (by decide)).2 "C" 1 rfl (by decide)
  have hq : q = "A" := by
    have h1' : some "A" = some q := h1
    exact (Option.some.inj h1').symm
  subst hq
  have hj : j = 0 := by
    have h2' : some 0 = some j := h2
    exact (Option.some.inj h2').symm
  subst hj
  exact h3

/-- C3 counterexample: catalog `[A,B,C,D]`, available `[B,C]`, current
index 0 (pose `A`, uncached): previous selects index 3, pose `D`, which is
not in the available list — so a previous-pose action can target an uncached
pose and hence trigger a generation request. -/
theorem previous_targets_uncached_counterexample :
    handlePreviousPose false ["A", "B", "C", "D"] 0 ["B", "C"] = some 3
      ∧ (["A", "B", "C", "D"] : List String).get? 3 = some "D"
      ∧ "D" ∉ (["B", "C"] : List String) := by
  decide

/-- C3 amended: provided the current pose itself is present in the available
list, every pose `handlePreviousPose` selects is present in the available
(cached) list; the full-catalog wrap taken when the current pose is
unavailable can escape it. -/
theorem previous_targets_available_when_current_available
    (poseInstructions availablePoseKeys : List String) (i j p : Nat) (s : String)
    (hcur : poseInstructions.get? i = some s)
    (hfound : idxOf? availablePoseKeys s = some p)
    (hsel : handlePreviousPose false poseInstructions i availablePoseKeys = some j) :
    ∃ t, poseInstructions.get? j = some t ∧ t ∈ availablePoseKeys := by
  by_cases hguard : availablePoseKeys.length ≤ 1
  · exfalso
    have hnone : handlePreviousPose false poseInstructions i availablePoseKeys = none := by
      simp [handlePreviousPose, hguard]
    exact Option.noConfusion (hnone ▸ hsel)
  · have hlt : (p + availablePoseKeys.length - 1) % availablePoseKeys.length
        < availablePoseKeys.length := Nat.mod_lt _ (by omega)
    obtain ⟨prevPose, hprev⟩ : ∃ x,
        availablePoseKeys.get?
            ((p + availablePoseKeys.length - 1) % availablePoseKeys.length) = some x :=
      ⟨_, List.get?_eq_get hlt⟩
    have hres : handlePreviousPose false poseInstructions i availablePoseKeys
        = idxOf? poseInstructions prevPose := by
      have hcur' := hcur
      have hprev' := hprev
      simp only [List.get?_eq_getElem?] at hcur' hprev'
      simp [handlePreviousPose, hguard, hcur', hfound, hprev']
    refine ⟨prevPose, ?_, List.get?_mem hprev⟩
    exact idxOf?_get? poseInstructions j prevPose (hres ▸ hsel)

/-- Witness for C3's amended theorem: from available pose `C`, previous
selects index 0, whose pose `A` is in the available list. -/
theorem previous_targets_available_witness :
    ∃ t, (["A", "B", "C", "D"] : List String).get? 0 = some t
      ∧ t ∈ (["A", "C"] : List String) :=
  previous_targets_available_when_current_available
    ["A", "B", "C", "D"] ["A", "C"] 2 0 1 "C" rfl (by decide) (by decide)

/-- C4: every try-on call derives from the previous state's artifact — when
`generateVirtualTryOnImage` issues a request, its parts are exactly the
inline part converted from `modelImageUrl` (the previous signature's
artifact), the inline part converted from the new garment file, and the
instruction text; a failed conversion of the previous artifact means no
request parts are ever produced. -/
theorem tryOn_includes_previous_artifact (modelImageUrl : String) (garmentImage : File)
    (parts : List Part)
    (h : generateVirtualTryOnImage modelImageUrl garmentImage = .ok parts) :
    ∃ modelPart garmentPart,
      dataUrlToPart modelImageUrl = .ok modelPart
      ∧ fileToPart garmentImage = .ok garmentPart
      ∧ parts = [modelPart, garmentPart, Part.text tryOnPromptText] := by
  unfold generateVirtualTryOnImage at h
  cases hm : dataUrlToPart modelImageUrl with
  | error e => simp [hm] at h
  | ok mp =>
      cases hg : fileToPart garmentImage with
      | error e => simp [hm, hg] at h
      | ok gp =>
          simp [hm, hg] at h
          exact ⟨mp, gp, rfl, rfl, h.symm⟩

/-- Witness for C4: a concrete data URL for the previous artifact and a
concrete garment file. -/
theorem tryOn_includes_previous_artifact_witness :
    ∃ modelPart garmentPart,
      dataUrlToPart "data:image/png;base64,MMM" = .ok modelPart
      ∧ fileToPart ⟨"g.jpg", "image/jpeg", "data:image/jpeg;base64,GGG"⟩ = .ok garmentPart
      ∧ [Part.inlineData "image/png" "MMM", Part.inlineData "image/jpeg" "GGG",
          Part.text tryOnPromptText]
        = [modelPart, garmentPart, Part.text tryOnPromptText] :=
  tryOn_includes_previous_artifact "data:image/png;base64,MMM"
    ⟨"g.jpg", "image/jpeg", "data:image/jpeg;base64,GGG"⟩
    [Part.inlineData "image/png" "MMM", Part.inlineData "image/jpeg" "GGG",
      Part.text tryOnPromptText]
    (by decide)

/-- C5: a response with a missing or empty candidate list makes
`handleApiResponse` throw the no-candidate error (mentioning possible safety
filters) and never return an artifact. -/
theorem no_candidates_fails (response : GenerateContentResponse)
    (h : response.candidates = none ∨ response.candidates = some []) :
    handleApiResponse response
      = .error "No candidates returned from the model. This may be due to safety filters." := by
  rcases h with h | h <;> simp [handleApiResponse, h]

/-- Witness for C5: the empty-candidate-list response. -/
theorem no_candidates_fails_witness :
    handleApiResponse ⟨some [], some "hello"⟩
      = .error "No candidates returned from the model. This may be due to safety filters." :=
  no_candidates_fails ⟨some [], some "hello"⟩ (Or.inr rfl)

/-- C6: when candidates are present but carry no inline image data, the first
candidate's finish reason is `STOP` or absent, and the response text trims
to a non-empty string, `handleApiResponse` throws the text-only error quoting
the trimmed text — it never returns an artifact. -/
theorem text_only_response_fails (response : GenerateContentResponse)
    (cands : List Candidate) (t : String)
    (hc : response.candidates = some cands)
    (hne : cands ≠ [])
    (hnoimg : firstInline cands = none)
    (hfr : (cands.get? 0).bind Candidate.finishReason = none
        ∨ (cands.get? 0).bind Candidate.finishReason = some "STOP")
    (ht : response.text = some t)
    (htne : jsTrim t ≠ "") :
    handleApiResponse response
      = .error ("The model responded with text instead of an image: \""
          ++ jsTrim t ++ "\"") := by
  have hlen : ¬ cands.length = 0 := by
    simpa [List.length_eq_zero] using hne
  rcases hfr with hfr | hfr <;>
    · simp only [List.get?_eq_getElem?] at hfr
      simp [handleApiResponse, hc, hlen, hnoimg, hfr, finishAbnormal, ht, htne]

/-- Witness for C6: one candidate with a single part without inline data,
finish reason `STOP`, and text `" hello "`. -/
theorem text_only_response_fails_witness :
    handleApiResponse ⟨some [⟨some ⟨some [⟨none⟩]⟩, some "STOP"⟩], some " hello "⟩
      = .error "The model responded with text instead of an image: \"hello\"" :=
  text_only_response_fails ⟨some [⟨some ⟨some [⟨none⟩]⟩, some "STOP"⟩], some " hello "⟩
    [⟨some ⟨some [⟨none⟩]⟩, some "STOP"⟩] " hello "
    rfl (by decide) (by decide) (Or.inr rfl) rfl (by decide)

/-- C7: a selected file whose MIME type does not start with `image/` is
rejected at the selection boundary with an error message, so
`onGarmentSelect` is never invoked for it. -/
theorem nonimage_file_rejected (now : Nat) (objectUrl : String)
    (files : List File) (f : File)
    (hf : files.head? = some f)
    (ht : jsStartsWith f.type "image/" = false) :
    handleFileChange now objectUrl files = .rejected "Please select an image file." := by
  simp [handleFileChange, hf, ht]

/-- Witness for C7: a `text/plain` upload. -/
theorem nonimage_file_rejected_witness :
    handleFileChange 5 "blob:xyz" [⟨"notes.txt", "text/plain", "data:text/plain,hi"⟩]
      = .rejected "Please select an image file." :=
  nonimage_file_rejected 5 "blob:xyz" [⟨"notes.txt", "text/plain", "data:text/plain,hi"⟩]
    ⟨"notes.txt", "text/plain", "data:text/plain,hi"⟩ rfl (by decide)

/-- C9: `handleApiResponse` deterministically returns the data URL built
from the first inline-data part, scanning candidates in order and each
candidate's parts in order: earlier candidates without inline data and
earlier parts without inline data are skipped, later image parts are
ignored. -/
theorem first_image_part_returned (response : GenerateContentResponse)
    (pre post : List Candidate) (c : Candidate)
    (ppre ppost : List RespPart) (p : RespPart) (d : InlineData)
    (hc : response.candidates = some (pre ++ c :: post))
    (hpre : ∀ c' ∈ pre, ∀ q ∈ candidateParts c', q.inlineData = none)
    (hparts : candidateParts c = ppre ++ p :: ppost)
    (hppre : ∀ q ∈ ppre, q.inlineData = none)
    (hp : p.inlineData = some d) :
    handleApiResponse response
      = .ok ("data:" ++ d.mimeType ++ ";base64," ++ d.data) := by
  have hfirst : firstInline (pre ++ c :: post) = some d := by
    unfold firstInline
    rw [findSome?_append_left_none _ pre (c :: post)
      (fun c' hc' => findSome?_none_of_forall _ _ (hpre c' hc'))]
    rw [List.findSome?_cons]
    have hcp : (candidateParts c).findSome? RespPart.inlineData = some d := by
      rw [hparts, findSome?_append_left_none _ ppre (p :: ppost) hppre,
        List.findSome?_cons, hp]
    rw [hcp]
  have hlen : ¬ (pre ++ c :: post).length = 0 := by simp
  simp [handleApiResponse, hc, hlen, hfirst]

/-- Witness for C9: two candidates, the first with no parts list, the second
with a non-image part followed by two image parts; the first image part wins
and the later one is ignored. -/
theorem first_image_part_returned_witness :
    handleApiResponse
        ⟨some [⟨none, some "STOP"⟩,
               ⟨some ⟨some [⟨none⟩, ⟨some ⟨"image/png", "FIRST"⟩⟩,
                            ⟨some ⟨"image/jpeg", "SECOND"⟩⟩]⟩, none⟩],
          none⟩
      = .ok "data:image/png;base64,FIRST" :=
  first_image_part_returned
    ⟨some [⟨none, some "STOP"⟩,
           ⟨some ⟨some [⟨none⟩, ⟨some ⟨"image/png", "FIRST"⟩⟩,
                        ⟨some ⟨"image/jpeg", "SECOND"⟩⟩]⟩, none⟩],
      none⟩
    [⟨none, some "STOP"⟩] []
    ⟨some ⟨some [⟨none⟩, ⟨some ⟨"image/png", "FIRST"⟩⟩,
                 ⟨some ⟨"image/jpeg", "SECOND"⟩⟩]⟩, none⟩
    [⟨none⟩] [⟨some ⟨"image/jpeg", "SECOND"⟩⟩]
    ⟨some ⟨"image/png", "FIRST"⟩⟩ ⟨"image/png", "FIRST"⟩
    rfl (by decide) rfl (by decide) rfl

/-- C10: clicking a wardrobe item that is already applied (its id among
`activeGarmentIds`), or clicking while loading, is a no-op: the handler
returns before `urlToFile`/`onGarmentSelect`, so the garment is never
re-applied. -/
theorem active_garment_click_ignored (loadFile : String → String → Except Unit File)
    (isLoading : Bool) (activeGarmentIds : List String) (item : WardrobeItem)
    (h : isLoading = true ∨ item.id ∈ activeGarmentIds) :
    handleGarmentClick loadFile isLoading activeGarmentIds item = .ignored := by
  rcases h with h | h <;> simp [handleGarmentClick, h]

/-- Witness for C10: a garment whose id is active, with a loader that would
succeed. -/
theorem active_garment_click_ignored_witness :
    handleGarmentClick (fun u n => .ok ⟨n, "image/png", u⟩) false
      ["g1", "g2"] ⟨"g2", "Jacket", "data:image/png;base64,JJ"⟩
      = .ignored :=
  active_garment_click_ignored (fun u n => .ok ⟨n, "image/png", u⟩) false
    ["g1", "g2"] ⟨"g2", "Jacket", "data:image/png;base64,JJ"⟩
    (Or.inr (by decide))

end FitCheck
